import Mathlib

/-!
Verification of the UTB Telegram astrology bot (`src/database.py`, `src/payments.py`,
`src/bot.py`, `src/config.py`, `src/referral.py`) against its natural-language
specification.

Modelling conventions (shallow embedding):
* The SQLite tables `users`, `referrals` and `payments` are modelled as Lean lists of
  structures mirroring the columns declared in `Database._create_tables`.
* `datetime` values (the `isoformat` strings stored in the database) are modelled as
  natural numbers (seconds since an epoch); the isoformat rendering is order-preserving,
  so comparisons such as `expiry > datetime.utcnow()` become `now < expiry`.
* Calls to `datetime.utcnow()` are hoisted into an explicit `now : Nat` parameter, and
  the random draw of `Database._generate_unique_code` is hoisted into an explicit
  `freshCode` argument (resp. a stream of draws for the generator itself).
* SQL statements become pure list transformations: `INSERT` appends, `UPDATE ... WHERE`
  maps over the rows, `INSERT OR REPLACE` on the primary key removes the old row and
  appends the new one, `SELECT ... WHERE pk = ?` is `List.find?`.
-/

/-- Row of the `users` table (`database.py`, `_create_tables`).
`is_subscribed` is kept as the raw SQLite integer; `subscription_expiry` is `none`
for SQL NULL; `referred_by` is `none` for NULL. -/
structure UserRow where
  user_id : Nat
  chat_id : Nat
  name : String
  birth_date : String
  birth_time : String
  birth_place : String
  message_time : String
  registered_on : Nat
  referral_code : String
  referred_by : Option String
  points : Nat
  is_subscribed : Nat
  subscription_expiry : Option Nat
deriving Repr, DecidableEq

/-- Row of the `referrals` table. -/
structure ReferralRow where
  referrer_code : String
  referred_user_id : Nat
  timestamp : Nat
deriving Repr, DecidableEq

/-- Row of the `payments` table (primary key `payment_id`). -/
structure PaymentRow where
  payment_id : String
  user_id : Nat
  amount : Nat
  currency : String
  status : String
  timestamp : Nat
deriving Repr, DecidableEq

/-- The whole SQLite database state. -/
structure DB where
  users : List UserRow
  referrals : List ReferralRow
  payments : List PaymentRow
deriving Repr, DecidableEq

/-- `config.REFERRAL_BONUS`. -/
def referralBonus : Nat := 10

/-- `config.SUBSCRIPTION_PERIOD = timedelta(days=30)`, in seconds. -/
def subscriptionPeriod : Nat := 30 * 86400

/-- `Database.get_user`: `SELECT * FROM users WHERE user_id = ?`. -/
def getUser (db : DB) (uid : Nat) : Option UserRow :=
  db.users.find? (fun r => r.user_id == uid)

/-- The effect on one row of `UPDATE users SET points = points + ? WHERE referral_code = ?`. -/
def creditOne (code : String) (r : UserRow) : UserRow :=
  if r.referral_code == code then { r with points := r.points + referralBonus } else r

/-- `UPDATE users SET points = points + REFERRAL_BONUS WHERE referral_code = ?`
(`database.py` lines 140-147). -/
def creditReferrer (users : List UserRow) (code : String) : List UserRow :=
  users.map (creditOne code)

/-- The body of `Database.add_user` past the existing-user early return: insert the new
row (with `points`, `is_subscribed`, `subscription_expiry` taking their SQL defaults
`0`, `0`, NULL), and, when `referred_by` is truthy (Python: non-None and non-empty),
insert a referral edge and credit the referrer. -/
def addUserApply (db : DB) (uid chat : Nat)
    (name bdate btime bplace mtime : String)
    (referredBy : Option String) (freshCode : String) (now : Nat) : DB :=
  let row : UserRow :=
    ⟨uid, chat, name, bdate, btime, bplace, mtime, now, freshCode, referredBy, 0, 0, none⟩
  let users1 := db.users ++ [row]
  match referredBy with
  | none => { db with users := users1 }
  | some c =>
    if c == "" then { db with users := users1 }
    else
      { users := creditReferrer users1 c
        referrals := db.referrals ++ [⟨c, uid, now⟩]
        payments := db.payments }

/-- `Database.add_user` (`database.py` lines 89-148): early no-op return when the user
already exists, otherwise the insert/credit body followed by a single `commit`. -/
def addUser (db : DB) (uid chat : Nat)
    (name bdate btime bplace mtime : String)
    (referredBy : Option String) (freshCode : String) (now : Nat) : DB :=
  if (getUser db uid).isSome then db
  else addUserApply db uid chat name bdate btime bplace mtime referredBy freshCode now

/-- `Database.add_user` with the transaction boundary made explicit: all three SQL
statements of the body execute inside one implicit transaction and become visible only
at the single `self.conn.commit()` on line 148; `commitOk = false` models a store
failure at (or before) that commit, which publishes nothing. -/
def addUserTxn (commitOk : Bool) (db : DB) (uid chat : Nat)
    (name bdate btime bplace mtime : String)
    (referredBy : Option String) (freshCode : String) (now : Nat) : DB :=
  if (getUser db uid).isSome then db
  else if commitOk then
    addUserApply db uid chat name bdate btime bplace mtime referredBy freshCode now
  else db

lemma creditOne_user_id (code : String) (r : UserRow) :
    (creditOne code r).user_id = r.user_id := by
  unfold creditOne; split <;> rfl

lemma getUser_isSome_of_mem {db : DB} {uid : Nat}
    (h : ∃ u ∈ db.users, u.user_id = uid) : (getUser db uid).isSome := by
  obtain ⟨u, hu, he⟩ := h
  unfold getUser
  rw [List.find?_isSome]
  exact ⟨u, hu, by simp [he]⟩

lemma getUser_addUserApply_isSome (db : DB) (uid chat : Nat)
    (name bdate btime bplace mtime : String)
    (referredBy : Option String) (freshCode : String) (now : Nat) :
    (getUser (addUserApply db uid chat name bdate btime bplace mtime referredBy freshCode now)
      uid).isSome := by
  apply getUser_isSome_of_mem
  unfold addUserApply
  cases referredBy with
  | none =>
    exact ⟨_, List.mem_append_right _ (List.mem_singleton.mpr rfl), rfl⟩
  | some c =>
    by_cases hc : c == ""
    · simp only [hc, if_pos]
      exact ⟨_, List.mem_append_right _ (List.mem_singleton.mpr rfl), rfl⟩
    · simp only [hc, if_neg, Bool.false_eq_true, not_false_iff]
      refine ⟨creditOne c ⟨uid, chat, name, bdate, btime, bplace, mtime, now, freshCode,
        some c, 0, 0, none⟩, ?_, ?_⟩
      · exact List.mem_map_of_mem _ (List.mem_append_right _ (List.mem_singleton.mpr rfl))
      · rw [creditOne_user_id]

/-- C1. For every user identity that already has a Profile, calling `add_user` again
with that identity (with arbitrary, possibly different, field values) is a no-op: the
database after the second call is exactly the database after the first call, so every
user's points and the referral-edge list are unchanged by the second call. -/
theorem c1_add_user_idempotent (db : DB) (uid chat chat' : Nat)
    (name bdate btime bplace mtime name' bdate' btime' bplace' mtime' : String)
    (referredBy referredBy' : Option String) (freshCode freshCode' : String)
    (now now' : Nat) :
    addUser (addUser db uid chat name bdate btime bplace mtime referredBy freshCode now)
      uid chat' name' bdate' btime' bplace' mtime' referredBy' freshCode' now'
    = addUser db uid chat name bdate btime bplace mtime referredBy freshCode now := by
  by_cases h : (getUser db uid).isSome
  · simp [addUser, h]
  · have h1 : addUser db uid chat name bdate btime bplace mtime referredBy freshCode now
        = addUserApply db uid chat name bdate btime bplace mtime referredBy freshCode now := by
      simp [addUser, h]
    rw [h1]
    simp [addUser, getUser_addUserApply_isSome]

/-- `Database.set_subscription` (`database.py` lines 248-254):
`UPDATE users SET is_subscribed = 1, subscription_expiry = ? WHERE user_id = ?`. -/
def setSubOne (uid : Nat) (expiry : Nat) (r : UserRow) : UserRow :=
  if r.user_id == uid then { r with is_subscribed := 1, subscription_expiry := some expiry }
  else r

/-- `Database.set_subscription` acting on the whole database. -/
def setSubscription (db : DB) (uid : Nat) (expiry : Nat) : DB :=
  { db with users := db.users.map (setSubOne uid expiry) }

/-- `Database.check_subscription` (`database.py` lines 256-264): absent user gives
`False`; then `is_subscribed != 1` or NULL expiry give `False`; otherwise the strict
comparison `expiry > datetime.utcnow()`. -/
def checkSubscription (db : DB) (uid : Nat) (now : Nat) : Bool :=
  match getUser db uid with
  | none => false
  | some r =>
    if r.is_subscribed != 1 then false
    else
      match r.subscription_expiry with
      | none => false
      | some e => now < e

/-- `Database.record_payment` (`database.py` lines 269-281):
`INSERT OR REPLACE INTO payments ...` keyed on the primary key `payment_id`, which
removes any conflicting row and inserts the new one. -/
def recordPayment (db : DB) (pid : String) (uid amount : Nat)
    (currency status : String) (now : Nat) : DB :=
  { db with payments :=
      db.payments.filter (fun p => p.payment_id != pid)
        ++ [⟨pid, uid, amount, currency, status, now⟩] }

/-- `payments.handle_successful_payment` (`payments.py` lines 75-108), database part:
record the payment with status `"successful"`, then set the subscription expiry to
`datetime.utcnow() + config.SUBSCRIPTION_PERIOD`. -/
def handleSuccessfulPayment (db : DB) (pid : String) (uid amount : Nat)
    (currency : String) (now : Nat) : DB :=
  setSubscription (recordPayment db pid uid amount currency "successful" now)
    uid (now + subscriptionPeriod)

/-- C4. `check_subscription` returns `true` exactly when the user exists, the stored
`is_subscribed` flag equals 1, the stored expiry is non-NULL, and that expiry is
strictly greater than the current time.  In particular it is `false` for an absent
user, `false` when only the flag is set but the expiry is NULL or not in the future,
and `false` at the exact expiry instant (no grace period, strict comparison). -/
theorem c4_check_subscription_iff (db : DB) (uid now : Nat) :
    checkSubscription db uid now = true
    ↔ ∃ r, getUser db uid = some r ∧ r.is_subscribed = 1
        ∧ ∃ e, r.subscription_expiry = some e ∧ now < e := by
  unfold checkSubscription
  cases hg : getUser db uid with
  | none => simp
  | some r =>
    cases hs : r.is_subscribed == 1 with
    | false =>
      simp only [bne, hs, Bool.not_false, if_pos]
      constructor
      · intro h; exact absurd h (by simp)
      · rintro ⟨r', hr', h1, -⟩
        injection hr' with hr''; subst hr''
        exact absurd (beq_iff_eq.mpr h1) (by simp [hs])
    | true =>
      simp only [bne, hs, Bool.not_true, Bool.false_eq_true, if_false]
      cases he : r.subscription_expiry with
      | none =>
        simp only [Bool.false_eq_true, false_iff]
        rintro ⟨r', hr', -, e, hee, -⟩
        injection hr' with hr''; subst hr''
        rw [he] at hee; cases hee
      | some e =>
        simp only [decide_eq_true_eq]
        constructor
        · intro h
          exact ⟨r, rfl, beq_iff_eq.mp hs, e, he, h⟩
        · rintro ⟨r', hr', -, e', hee, hlt⟩
          injection hr' with hr''; subst hr''
          rw [he] at hee; cases hee
          exact hlt

lemma setSubOne_user_id (uid e : Nat) (r : UserRow) :
    (setSubOne uid e r).user_id = r.user_id := by
  unfold setSubOne; split <;> rfl

lemma find?_map_setSubOne (uid e : Nat) (l : List UserRow) :
    (l.map (setSubOne uid e)).find? (fun r => r.user_id == uid)
      = (l.find? (fun r => r.user_id == uid)).map (setSubOne uid e) := by
  induction l with
  | nil => rfl
  | cons r l ih =>
    by_cases h : (r.user_id == uid) = true
    · simp [List.find?_cons, setSubOne_user_id, h]
    · simp only [Bool.not_eq_true] at h
      simp [List.find?_cons, setSubOne_user_id, h, ih]

lemma getUser_handleSuccessfulPayment (db : DB) (pid : String) (uid amount : Nat)
    (cur : String) (now : Nat) :
    getUser (handleSuccessfulPayment db pid uid amount cur now) uid
      = (getUser db uid).map (setSubOne uid (now + subscriptionPeriod)) := by
  unfold handleSuccessfulPayment setSubscription recordPayment getUser
  exact find?_map_setSubOne _ _ _

lemma handleSuccessfulPayment_fields (db : DB) (pid : String) (uid amount : Nat)
    (cur : String) (now : Nat) (r : UserRow)
    (h : getUser (handleSuccessfulPayment db pid uid amount cur now) uid = some r) :
    r.is_subscribed = 1 ∧ r.subscription_expiry = some (now + subscriptionPeriod) := by
  rw [getUser_handleSuccessfulPayment] at h
  cases hg : getUser db uid with
  | none => rw [hg] at h; cases h
  | some r0 =>
    rw [hg] at h
    have hg' : db.users.find? (fun r => r.user_id == uid) = some r0 := hg
    have hp : (r0.user_id == uid) = true := by
      have h2 := List.find?_some hg'
      simpa using h2
    injection h with h'
    subst h'
    unfold setSubOne
    rw [if_pos hp]
    exact ⟨rfl, rfl⟩

/-- C5. A successful payment sets the subscription from the current clock: after
`handle_successful_payment` at time `t₁` the stored row has `is_subscribed = 1` and
`subscription_expiry = t₁ + 30 days`; and after a second renewal at time `t₂` (any
payment id), the expiry is exactly `t₂ + 30 days` — computed from the time of the
second renewal, not accumulated on top of the previous expiry. -/
theorem c5_apply_subscription_from_now (db : DB) (pid pid' : String)
    (uid amount amount' : Nat) (cur cur' : String) (t1 t2 : Nat) :
    (∀ r, getUser (handleSuccessfulPayment db pid uid amount cur t1) uid = some r →
      r.is_subscribed = 1 ∧ r.subscription_expiry = some (t1 + subscriptionPeriod))
    ∧ (∀ r, getUser (handleSuccessfulPayment
          (handleSuccessfulPayment db pid uid amount cur t1) pid' uid amount' cur' t2)
          uid = some r →
      r.is_subscribed = 1 ∧ r.subscription_expiry = some (t2 + subscriptionPeriod)) := by
  constructor
  · intro r h; exact handleSuccessfulPayment_fields _ _ _ _ _ _ _ h
  · intro r h; exact handleSuccessfulPayment_fields _ _ _ _ _ _ _ h

/-- Concrete database used by the witnesses: one registered, unsubscribed user. -/
def wUser : UserRow :=
  ⟨1, 7, "Anna", "2000-01-01", "12:00", "Berlin", "09:00", 0, "aaaa1111", none, 0, 0, none⟩

/-- Concrete one-user database used by the witnesses. -/
def wDB : DB := ⟨[wUser], [], []⟩

/-- Witness for C5: on the concrete one-user database, a payment processed at time 5
yields the concretely evaluated row with `is_subscribed = 1` and expiry `5 + 30 days`. -/
theorem c5_witness :
    (⟨1, 7, "Anna", "2000-01-01", "12:00", "Berlin", "09:00", 0, "aaaa1111", none, 0, 1,
        some (5 + subscriptionPeriod)⟩ : UserRow).is_subscribed = 1
    ∧ (⟨1, 7, "Anna", "2000-01-01", "12:00", "Berlin", "09:00", 0, "aaaa1111", none, 0, 1,
        some (5 + subscriptionPeriod)⟩ : UserRow).subscription_expiry
        = some (5 + subscriptionPeriod) :=
  (c5_apply_subscription_from_now wDB "p1" "p2" 1 49900 49900 "RUB" "RUB" 5 7).1
    _ (by decide)

lemma setSubOne_collapse (uid e1 e2 : Nat) (r : UserRow) :
    setSubOne uid e2 (setSubOne uid e1 r) = setSubOne uid e2 r := by
  by_cases h : (r.user_id == uid) = true
  · cases r
    simp only [setSubOne] at h ⊢
    simp [h]
  · simp only [Bool.not_eq_true] at h
    simp [setSubOne, h]

lemma filter_ne_then_eq_nil (pid : String) (l : List PaymentRow) :
    (l.filter (fun p => p.payment_id != pid)).filter (fun p => p.payment_id == pid) = [] := by
  induction l with
  | nil => rfl
  | cons a l ih =>
    by_cases h : (a.payment_id == pid) = true
    · simp [List.filter_cons, bne, h, ih]
    · simp only [Bool.not_eq_true] at h
      simp [List.filter_cons, bne, h, ih]

lemma filter_ne_idem (pid : String) (l : List PaymentRow) :
    (l.filter (fun p => p.payment_id != pid)).filter (fun p => p.payment_id != pid)
      = l.filter (fun p => p.payment_id != pid) := by
  induction l with
  | nil => rfl
  | cons a l ih =>
    by_cases h : (a.payment_id != pid) = true
    · simp [List.filter_cons, h, ih]
    · simp only [Bool.not_eq_true] at h
      simp [List.filter_cons, h, ih]

/-- C2 counterexample. On a concrete one-user database, the payment-completion event
with paymentId `"pay1"` processed once at time 0 leaves `subscription_expiry = 30 days`;
replaying the very same event (same paymentId) at time 3600 moves the expiry to
`3600 + 30 days` — the replay does write the subscription expiry a second time,
contradicting the claim that a duplicate delivery "does not extend the user's
subscriptionExpiry a second time". -/
theorem c2_counterexample :
    ((handleSuccessfulPayment wDB "pay1" 1 49900 "RUB" 0).users.map
        (fun r => r.subscription_expiry)) = [some subscriptionPeriod]
    ∧ ((handleSuccessfulPayment (handleSuccessfulPayment wDB "pay1" 1 49900 "RUB" 0)
          "pay1" 1 49900 "RUB" 3600).users.map (fun r => r.subscription_expiry))
        = [some (3600 + subscriptionPeriod)]
    ∧ some (3600 + subscriptionPeriod) ≠ some subscriptionPeriod := by
  refine ⟨rfl, rfl, ?_⟩
  decide

/-- C2 (amended). Replaying the payment-completion event with the same paymentId is
absorbed by the upsert: the database after processing the event twice (at times `t₁`
then `t₂`, any amounts/currencies) is exactly the database after processing it once at
the second time — so exactly one payment row for that paymentId remains and the expiry
is one period beyond the second processing time, never two periods accumulated.
Moreover a single processing leaves exactly one payment row with that paymentId. -/
theorem c2_record_payment_replay (db : DB) (pid : String) (uid amount amount' : Nat)
    (cur cur' : String) (t1 t2 : Nat) :
    handleSuccessfulPayment (handleSuccessfulPayment db pid uid amount cur t1)
        pid uid amount' cur' t2
      = handleSuccessfulPayment db pid uid amount' cur' t2
    ∧ ((handleSuccessfulPayment db pid uid amount cur t1).payments.filter
        (fun p => p.payment_id == pid)).length = 1 := by
  constructor
  · unfold handleSuccessfulPayment setSubscription recordPayment
    simp only [List.map_map, List.filter_append]
    congr 1
    · exact List.map_congr_left (fun r _ => setSubOne_collapse _ _ _ _)
    · rw [filter_ne_idem]
      simp [List.filter_cons, bne]
  · unfold handleSuccessfulPayment setSubscription recordPayment
    simp only [List.filter_append]
    rw [filter_ne_then_eq_nil]
    simp [List.filter_cons]

/-- C3. Creating a profile with a referral code is all-or-nothing.  All three SQL
statements of `add_user` (user insert, referral-edge insert, referrer credit) execute
inside one implicit SQLite transaction published by the single `commit()` on line 148,
so for every outcome of that commit the database either is completely unchanged or
carries the full effect: the profile exists, and — when a truthy referral code `c` was
given — the ReferralEdge `(c, uid, now)` is present and every pre-existing user whose
referral code is `c` has received the bonus points.  There is no outcome with the
profile present but the edge or the credit missing. -/
theorem c3_add_user_all_or_nothing (commitOk : Bool) (db : DB) (uid chat : Nat)
    (name bdate btime bplace mtime : String) (referredBy : Option String)
    (freshCode : String) (now : Nat) :
    addUserTxn commitOk db uid chat name bdate btime bplace mtime referredBy freshCode now = db
    ∨ (addUserTxn commitOk db uid chat name bdate btime bplace mtime referredBy freshCode now
        = addUser db uid chat name bdate btime bplace mtime referredBy freshCode now
      ∧ (getUser (addUserTxn commitOk db uid chat name bdate btime bplace mtime referredBy
          freshCode now) uid).isSome
      ∧ ∀ c, referredBy = some c → c ≠ "" →
          (⟨c, uid, now⟩ : ReferralRow) ∈ (addUserTxn commitOk db uid chat name bdate btime
              bplace mtime referredBy freshCode now).referrals
          ∧ ∀ u ∈ db.users, u.referral_code = c →
              { u with points := u.points + referralBonus } ∈ (addUserTxn commitOk db uid chat
                name bdate btime bplace mtime referredBy freshCode now).users) := by
  by_cases hg : (getUser db uid).isSome
  · left; simp [addUserTxn, hg]
  · cases commitOk with
    | false => left; simp [addUserTxn, hg]
    | true =>
      right
      have htxn : addUserTxn true db uid chat name bdate btime bplace mtime referredBy
          freshCode now
          = addUserApply db uid chat name bdate btime bplace mtime referredBy freshCode now := by
        simp [addUserTxn, hg]
      refine ⟨by simp [htxn, addUser, hg], ?_, ?_⟩
      · rw [htxn]; exact getUser_addUserApply_isSome _ _ _ _ _ _ _ _ _ _ _
      · rintro c rfl hc
        have hcb : (c == "") = false := by
          cases h : c == "" with
          | false => rfl
          | true => exact absurd (by simpa using h) hc
        rw [htxn]
        unfold addUserApply
        simp only [hcb, Bool.false_eq_true, if_false]
        constructor
        · exact List.mem_append_right _ (List.mem_singleton.mpr rfl)
        · intro u hu hcode
          have : creditOne c u = { u with points := u.points + referralBonus } := by
            unfold creditOne
            rw [if_pos (beq_iff_eq.mpr hcode)]
          rw [← this]
          exact List.mem_map_of_mem _ (List.mem_append_left _ hu)

/-- Witness for C3 at concrete inputs: commit succeeds, the new user id 2 is referred
by the existing code `"aaaa1111"` held by user 1 in the concrete database. -/
theorem c3_witness :
    addUserTxn true wDB 2 8 "Ben" "1999-05-05" "08:00" "Paris" "10:00" (some "aaaa1111")
        "bbbb2222" 3 = wDB
    ∨ (addUserTxn true wDB 2 8 "Ben" "1999-05-05" "08:00" "Paris" "10:00" (some "aaaa1111")
          "bbbb2222" 3
        = addUser wDB 2 8 "Ben" "1999-05-05" "08:00" "Paris" "10:00" (some "aaaa1111")
          "bbbb2222" 3
      ∧ (getUser (addUserTxn true wDB 2 8 "Ben" "1999-05-05" "08:00" "Paris" "10:00"
          (some "aaaa1111") "bbbb2222" 3) 2).isSome
      ∧ ∀ c, (some "aaaa1111" : Option String) = some c → c ≠ "" →
          (⟨c, 2, 3⟩ : ReferralRow) ∈ (addUserTxn true wDB 2 8 "Ben" "1999-05-05" "08:00"
              "Paris" "10:00" (some "aaaa1111") "bbbb2222" 3).referrals
          ∧ ∀ u ∈ wDB.users, u.referral_code = c →
              { u with points := u.points + referralBonus } ∈ (addUserTxn true wDB 2 8 "Ben"
                "1999-05-05" "08:00" "Paris" "10:00" (some "aaaa1111") "bbbb2222" 3).users) :=
  c3_add_user_all_or_nothing true wDB 2 8 "Ben" "1999-05-05" "08:00" "Paris" "10:00"
    (some "aaaa1111") "bbbb2222" 3

/-- C10 counterexample. `add_user` guards the referral bookkeeping with Python
truthiness (`if referred_by:`), which is false for the empty string.  So for the
non-null referredByCode `""` — which matches no existing user's referral code — the
profile is created but NO ReferralEdge is appended, contradicting the claim that for
every non-null unmatched code the edge "is still appended". -/
theorem c10_counterexample :
    (addUser wDB 2 8 "Ben" "1999-05-05" "08:00" "Paris" "10:00" (some "") "bbbb2222"
        3).referrals = []
    ∧ (addUser wDB 2 8 "Ben" "1999-05-05" "08:00" "Paris" "10:00" (some "") "bbbb2222"
        3).users.length = 2 := by
  exact ⟨rfl, rfl⟩

/-- C10 (amended). When `add_user` is called for a fresh user with a referredByCode `c`
that is non-null and non-empty and matches no existing user's referral code, the
profile is still created and a ReferralEdge naming `c` is still appended, while every
pre-existing user's row (in particular their points) is unchanged; the new row itself
starts with 0 points provided the freshly generated referral code differs from `c`.
The referral-edge count is therefore not an invariant equal to the number of successful
point credits. -/
theorem c10_unmatched_code_edge_no_credit (db : DB) (uid chat : Nat)
    (name bdate btime bplace mtime : String) (c freshCode : String) (now : Nat)
    (hnew : getUser db uid = none)
    (hc : c ≠ "")
    (hmatch : ∀ u ∈ db.users, u.referral_code ≠ c) :
    (addUser db uid chat name bdate btime bplace mtime (some c) freshCode now).referrals
      = db.referrals ++ [⟨c, uid, now⟩]
    ∧ (∃ nr, (addUser db uid chat name bdate btime bplace mtime (some c) freshCode now).users
        = db.users ++ [nr] ∧ nr.user_id = uid ∧ (freshCode ≠ c → nr.points = 0))
    ∧ (addUser db uid chat name bdate btime bplace mtime (some c) freshCode now).payments
      = db.payments := by
  have hguard : (getUser db uid).isSome = false := by rw [hnew]; rfl
  have hcb : (c == "") = false := by
    cases h : c == "" with
    | false => rfl
    | true => exact absurd (by simpa using h) hc
  have happ : addUser db uid chat name bdate btime bplace mtime (some c) freshCode now
      = addUserApply db uid chat name bdate btime bplace mtime (some c) freshCode now := by
    unfold addUser
    rw [hguard]
    rfl
  have happ2 : addUserApply db uid chat name bdate btime bplace mtime (some c) freshCode now
      = { users := creditReferrer (db.users ++ [⟨uid, chat, name, bdate, btime, bplace, mtime,
            now, freshCode, some c, 0, 0, none⟩]) c
          referrals := db.referrals ++ [⟨c, uid, now⟩]
          payments := db.payments } := by
    unfold addUserApply
    simp only [hcb, Bool.false_eq_true, if_false]
  rw [happ, happ2]
  refine ⟨rfl, ?_, rfl⟩
  unfold creditReferrer
  rw [List.map_append]
  have hold : db.users.map (creditOne c) = db.users := by
    have h1 : db.users.map (creditOne c) = db.users.map id :=
      List.map_congr_left (fun u hu => by
        unfold creditOne
        rw [if_neg (by simpa using hmatch u hu)]
        rfl)
    rw [h1, List.map_id]
  rw [hold]
  refine ⟨creditOne c ⟨uid, chat, name, bdate, btime, bplace, mtime, now, freshCode,
      some c, 0, 0, none⟩, rfl, creditOne_user_id _ _, ?_⟩
  intro hne
  unfold creditOne
  rw [if_neg (by simpa using hne)]

/-- Witness for C10 (amended) at concrete inputs: user 2 referred by the unmatched
non-empty code `"zzzz9999"` on the concrete one-user database. -/
theorem c10_witness :
    (addUser wDB 2 8 "Ben" "1999-05-05" "08:00" "Paris" "10:00" (some "zzzz9999")
        "bbbb2222" 3).referrals = wDB.referrals ++ [⟨"zzzz9999", 2, 3⟩]
    ∧ (∃ nr, (addUser wDB 2 8 "Ben" "1999-05-05" "08:00" "Paris" "10:00" (some "zzzz9999")
        "bbbb2222" 3).users = wDB.users ++ [nr] ∧ nr.user_id = 2
        ∧ ("bbbb2222" ≠ "zzzz9999" → nr.points = 0))
    ∧ (addUser wDB 2 8 "Ben" "1999-05-05" "08:00" "Paris" "10:00" (some "zzzz9999")
        "bbbb2222" 3).payments = wDB.payments :=
  c10_unmatched_code_edge_no_credit wDB 2 8 "Ben" "1999-05-05" "08:00" "Paris" "10:00"
    "zzzz9999" "bbbb2222" 3 (by decide) (by decide) (by decide)


/-- Characters stripped by Python `str.strip()` (ASCII whitespace). -/
def isSpaceCh (c : Char) : Bool :=
  c == ' ' || c == '\t' || c == '\n' || c == '\r' || c == '\x0b' || c == '\x0c'

/-- Python `str.strip()`: drop leading and trailing whitespace. -/
def pyStrip (s : String) : String :=
  String.mk (((s.data.dropWhile isSpaceCh).reverse.dropWhile isSpaceCh).reverse)

/-- `bot.RegState`: the registration conversation states. -/
inductive RegState where
  | NAME
  | BIRTH_DATE
  | BIRTH_TIME
  | BIRTH_PLACE
  | MESSAGE_TIME
  | CONFIRM
deriving Repr, DecidableEq

/-- `bot.ask_birth_date` (the NAME-state handler, `bot.py` lines 106-113): stores the
stripped message text as the name — with no validation whatsoever — and advances to
BIRTH_DATE.  Result: (value stored into the session draft, next conversation state). -/
def askBirthDate (input : String) : Option String × RegState :=
  (some (pyStrip input), RegState.BIRTH_DATE)

/-- `bot.ask_message_time` (the BIRTH_PLACE-state handler, `bot.py` lines 160-166):
stores the stripped message text as the birth place — with no validation — and
advances to MESSAGE_TIME. -/
def askMessageTime (input : String) : Option String × RegState :=
  (some (pyStrip input), RegState.MESSAGE_TIME)

/-- The effect on one row of `update_user(user.id, name=text)`. -/
def editNameOne (uid : Nat) (text : String) (r : UserRow) : UserRow :=
  if r.user_id == uid then { r with name := text } else r

/-- The `field == "name"` branch of `bot.handle_edit_message` (`bot.py` lines 376-379):
`db.update_user(user.id, name=text)` with the stripped input, unconditionally. -/
def handleEditName (db : DB) (uid : Nat) (input : String) : DB :=
  { db with users := db.users.map (editNameOne uid (pyStrip input)) }

/-- C7 counterexample. The input `"   "` is empty after trimming, yet the NAME-state
handler stores the empty string as the name and advances to BIRTH_DATE, and the
BIRTH_PLACE-state handler stores it and advances to MESSAGE_TIME — neither re-prompts,
contradicting the claim that an input empty after trimming is rejected with a re-prompt
of the same state rather than stored. -/
theorem c7_counterexample :
    askBirthDate "   " = (some "", RegState.BIRTH_DATE)
    ∧ askMessageTime "   " = (some "", RegState.MESSAGE_TIME) := by
  constructor <;> rfl

/-- C7 (amended). The NAME and BIRTH_PLACE handlers and the name edit flow perform no
emptiness validation at all: for every input string (including inputs empty after
trimming) the stripped value is stored and the conversation advances; the edit flow
overwrites the user's name with the stripped input and leaves other users untouched. -/
theorem c7_name_place_no_validation :
    (∀ s, askBirthDate s = (some (pyStrip s), RegState.BIRTH_DATE))
    ∧ (∀ s, askMessageTime s = (some (pyStrip s), RegState.MESSAGE_TIME))
    ∧ (∀ db uid s u, u ∈ db.users → u.user_id = uid →
        { u with name := pyStrip s } ∈ (handleEditName db uid s).users)
    ∧ (∀ db uid s u, u ∈ db.users → u.user_id ≠ uid →
        u ∈ (handleEditName db uid s).users) := by
  refine ⟨fun s => rfl, fun s => rfl, ?_, ?_⟩
  · intro db uid s u hu hid
    have h1 : editNameOne uid (pyStrip s) u = { u with name := pyStrip s } := by
      unfold editNameOne
      rw [if_pos (beq_iff_eq.mpr hid)]
    rw [← h1]
    exact List.mem_map_of_mem _ hu
  · intro db uid s u hu hid
    have h1 : editNameOne uid (pyStrip s) u = u := by
      unfold editNameOne
      rw [if_neg (by simpa using hid)]
    rw [← h1]
    exact List.mem_map_of_mem _ hu

/-- Witness for C7 (amended) at concrete inputs, including the name edit flow writing
the stripped name into the concrete database. -/
theorem c7_witness :
    askBirthDate "  " = (some (pyStrip "  "), RegState.BIRTH_DATE)
    ∧ askMessageTime "  " = (some (pyStrip "  "), RegState.MESSAGE_TIME)
    ∧ { wUser with name := pyStrip " Nina " } ∈ (handleEditName wDB 1 " Nina ").users :=
  ⟨c7_name_place_no_validation.1 "  ", c7_name_place_no_validation.2.1 "  ",
    c7_name_place_no_validation.2.2.1 wDB 1 " Nina " wUser (List.mem_singleton.mpr rfl) rfl⟩

/-- Numeric value of a digit character. -/
def chVal (c : Char) : Nat := c.toNat - 48

/-- Decimal value of a list of digit characters (most significant first). -/
def charsToNat (l : List Char) : Nat := l.foldl (fun a c => 10 * a + chVal c) 0

/-- Split a character list on a separator character, Python `str.split(sep)` style:
`splitSep ':' "a:b"` gives `["a", "b"]`, and the empty list gives `[[]]`. -/
def splitSep (sep : Char) : List Char → List (List Char)
  | [] => [[]]
  | c :: rest =>
    match splitSep sep rest with
    | [] => [[c]]
    | p :: ps => if c == sep then [] :: p :: ps else (c :: p) :: ps

/-- Python `int(x)` on a split component: succeeds exactly on a non-empty all-digit
string, giving its decimal value; anything else raises (`none`). -/
def natFromDigits (l : List Char) : Option Nat :=
  if !l.isEmpty && l.all Char.isDigit then some (charsToNat l) else none

/-- The `hour, minute = map(int, message_time.split(":"))` step of
`bot.schedule_daily_job`: exactly two `:`-separated components, both parsed by `int`. -/
def parseHM (s : String) : Option (Nat × Nat) :=
  match splitSep ':' s.data with
  | [hs, ms] =>
    match natFromDigits hs, natFromDigits ms with
    | some h, some m => some (h, m)
    | _, _ => none
  | _ => none

/-- One entry of the telegram `job_queue`, as used by `bot.schedule_daily_job`:
the job name `daily_{user_id}`, the fire time, and the user id carried in `data`. -/
structure Job where
  name : String
  hour : Nat
  minute : Nat
  userId : Nat
deriving Repr, DecidableEq

/-- The job name `f"daily_{user_id}"`. -/
def jobName (uid : Nat) : String := "daily_" ++ toString uid

/-- `bot.schedule_daily_job` (`bot.py` lines 244-265): first remove every job whose
name is `daily_{user_id}`, then parse the time string and install one new daily job.
`datetime.time(hour, minute)` raises for an out-of-range value, and `map(int, ...)`
raises on a malformed string; in those cases the removal has already happened, so the
error case carries the pruned queue. -/
def scheduleDailyJob (jobs : List Job) (uid : Nat) (mt : String) :
    Except (List Job) (List Job) :=
  let pruned := jobs.filter (fun j => j.name != jobName uid)
  match parseHM mt with
  | none => Except.error pruned
  | some (h, m) =>
    if h ≤ 23 && m ≤ 59 then Except.ok (pruned ++ [⟨jobName uid, h, m, uid⟩])
    else Except.error pruned

lemma filter_key_bne_then_beq {α : Type} (f : α → String) (x : String) (l : List α) :
    (l.filter (fun a => f a != x)).filter (fun a => f a == x) = [] := by
  induction l with
  | nil => rfl
  | cons a l ih =>
    by_cases h : (f a == x) = true
    · simp [List.filter_cons, bne, h, ih]
    · simp only [Bool.not_eq_true] at h
      simp [List.filter_cons, bne, h, ih]

lemma filter_key_bne_idem {α : Type} (f : α → String) (x : String) (l : List α) :
    (l.filter (fun a => f a != x)).filter (fun a => f a != x)
      = l.filter (fun a => f a != x) := by
  induction l with
  | nil => rfl
  | cons a l ih =>
    by_cases h : (f a != x) = true
    · simp [List.filter_cons, h, ih]
    · simp only [Bool.not_eq_true] at h
      simp [List.filter_cons, h, ih]

/-- C9. Rescheduling installs exactly one job for the user: for every job queue and
every pair of valid time strings, `schedule_daily_job` cancels every job named
`daily_{uid}` before installing the new one, so afterwards exactly one job with that
name exists (bearing the new time), all other users' jobs are untouched, and a
subsequent reschedule from the resulting queue equals a reschedule from the original
queue — hence repeated calls with the same time are idempotent, and rescheduling from
09:00 to 10:00 leaves exactly one future fire, at 10:00. -/
theorem c9_reschedule_exactly_one_job (jobs : List Job) (uid : Nat) (mt mt' : String)
    (h m h' m' : Nat)
    (hp : parseHM mt = some (h, m)) (hh : h ≤ 23) (hm : m ≤ 59)
    (hp' : parseHM mt' = some (h', m')) :
    ∃ out, scheduleDailyJob jobs uid mt = Except.ok out
      ∧ out.filter (fun j => j.name == jobName uid) = [⟨jobName uid, h, m, uid⟩]
      ∧ out.filter (fun j => j.name != jobName uid)
          = jobs.filter (fun j => j.name != jobName uid)
      ∧ scheduleDailyJob out uid mt' = scheduleDailyJob jobs uid mt' := by
  have hok : scheduleDailyJob jobs uid mt
      = Except.ok ((jobs.filter (fun j => j.name != jobName uid))
          ++ [⟨jobName uid, h, m, uid⟩]) := by
    unfold scheduleDailyJob
    rw [hp]
    simp [hh, hm]
  refine ⟨_, hok, ?_, ?_, ?_⟩
  · rw [List.filter_append, filter_key_bne_then_beq Job.name]
    simp [List.filter_cons]
  · rw [List.filter_append, filter_key_bne_idem Job.name]
    simp [List.filter_cons]
  · have hprune : List.filter (fun j => j.name != jobName uid)
        (List.filter (fun j => j.name != jobName uid) jobs ++ [(⟨jobName uid, h, m, uid⟩ : Job)])
        = List.filter (fun j => j.name != jobName uid) jobs := by
      rw [List.filter_append, filter_key_bne_idem Job.name]
      simp [List.filter_cons]
    unfold scheduleDailyJob
    rw [hp', hprune]

/-- Witness for C9: on the empty queue, rescheduling user 1 from 09:00 (then 10:00)
with the concretely parsed times. -/
theorem c9_witness :
    ∃ out, scheduleDailyJob [] 1 "09:00" = Except.ok out
      ∧ out.filter (fun j => j.name == jobName 1) = [⟨jobName 1, 9, 0, 1⟩]
      ∧ out.filter (fun j => j.name != jobName 1)
          = ([] : List Job).filter (fun j => j.name != jobName 1)
      ∧ scheduleDailyJob out 1 "10:00" = scheduleDailyJob [] 1 "10:00" :=
  c9_reschedule_exactly_one_job [] 1 "09:00" "10:00" 9 0 10 0
    (by decide) (by decide) (by decide) (by decide)

/-- The referral codes currently present in the `users` table, i.e. the result set of
`SELECT referral_code FROM users`. -/
def referralCodes (db : DB) : List String := db.users.map (fun r => r.referral_code)

/-- `Database._generate_unique_code` (`database.py` lines 203-211): draw
`secrets.token_hex(4)` repeatedly until the collision check (`SELECT 1 FROM users
WHERE referral_code = ?`) finds no match.  The random draws are hoisted into the
stream `draws`; the hypothesis states that the stream eventually proposes a code not
already present (with a cryptographically random stream over the 16^8 fixed-length
tokens this holds almost surely whenever some token is unused).  The loop returns the
first such draw. -/
def generateUniqueCode (draws : Nat → String) (db : DB)
    (h : ∃ i, draws i ∉ referralCodes db) : String :=
  draws (Nat.find h)

/-- C8. The retry loop of `_generate_unique_code` terminates at the first fresh draw:
the returned code is not equal to any existing user's referral code, every draw made
before it collided with an existing code (the loop retries exactly until the collision
check fails), and appending the returned code to a duplicate-free table of codes keeps
it duplicate-free — the global-uniqueness invariant of `referral_code` is preserved. -/
theorem c8_generate_unique_code_fresh (draws : Nat → String) (db : DB)
    (h : ∃ i, draws i ∉ referralCodes db) :
    generateUniqueCode draws db h ∉ referralCodes db
    ∧ (∀ j, j < Nat.find h → draws j ∈ referralCodes db)
    ∧ ((referralCodes db).Nodup →
        (generateUniqueCode draws db h :: referralCodes db).Nodup) := by
  refine ⟨Nat.find_spec h, ?_, ?_⟩
  · intro j hj
    have := Nat.find_min h hj
    exact not_not.mp this
  · intro hn
    exact List.nodup_cons.mpr ⟨Nat.find_spec h, hn⟩

/-- Constant draw stream used by the C8 witness. -/
def c8draws : Nat → String := fun _ => "cafe0123"

/-- The C8 witness hypothesis: on the concrete database, the first draw is fresh. -/
def c8drawsFresh : ∃ i, c8draws i ∉ referralCodes wDB := ⟨0, by decide⟩

/-- Witness for C8 at a concrete stream and database. -/
theorem c8_witness :
    generateUniqueCode c8draws wDB c8drawsFresh ∉ referralCodes wDB
    ∧ (∀ j, j < Nat.find c8drawsFresh → c8draws j ∈ referralCodes wDB)
    ∧ ((referralCodes wDB).Nodup →
        (generateUniqueCode c8draws wDB c8drawsFresh :: referralCodes wDB).Nodup) :=
  c8_generate_unique_code_fresh c8draws wDB c8drawsFresh

/-- Is the character an ASCII digit (the regex class `\d` of `_strptime`). -/
def isDigitCh (c : Char) : Bool := 48 ≤ c.toNat && c.toNat ≤ 57

/-- The decimal digit character for a value `0..9`. -/
def digitChar : Nat → Char
  | 0 => '0'
  | 1 => '1'
  | 2 => '2'
  | 3 => '3'
  | 4 => '4'
  | 5 => '5'
  | 6 => '6'
  | 7 => '7'
  | 8 => '8'
  | 9 => '9'
  | _ => '*'

/-- Zero-padded two-digit decimal rendering (`%d`, `%m` of `strftime`, and the
canonical two-digit input form for `%d`/`%m` of `strptime`). -/
def pad2Chars (n : Nat) : List Char := [digitChar (n / 10 % 10), digitChar (n % 10)]

/-- Zero-padded four-digit decimal rendering (`%Y`). -/
def pad4Chars (n : Nat) : List Char :=
  [digitChar (n / 1000 % 10), digitChar (n / 100 % 10), digitChar (n / 10 % 10),
    digitChar (n % 10)]

/-- Python `calendar` leap-year rule used by `datetime`. -/
def leapYear (y : Nat) : Bool := (y % 4 == 0 && y % 100 != 0) || y % 400 == 0

/-- Number of days in a month, as validated by the `datetime.datetime` constructor. -/
def daysInMonth (y m : Nat) : Nat :=
  if m == 2 then (if leapYear y then 29 else 28)
  else if m == 4 || m == 6 || m == 9 || m == 11 then 30 else 31

/-- The validation core of `datetime.strptime(text, "%d.%m.%Y")` on the three
dot-separated components: `%d` matches one or two digits with value 1..31, `%m` one or
two digits with value 1..12, `%Y` exactly four digits; then the `datetime` constructor
demands `year ≥ 1` and `day ≤ days_in_month(year, month)`. -/
def parseDateTriple (ds ms ys : List Char) : Option (Nat × Nat × Nat) :=
  if ((ds.length == 1 || ds.length == 2) && ds.all isDigitCh
      && (ms.length == 1 || ms.length == 2) && ms.all isDigitCh
      && (ys.length == 4 && ys.all isDigitCh)) then
    if (1 ≤ charsToNat ds && charsToNat ds ≤ 31
        && 1 ≤ charsToNat ms && charsToNat ms ≤ 12
        && 1 ≤ charsToNat ys
        && charsToNat ds ≤ daysInMonth (charsToNat ys) (charsToNat ms)) then
      some (charsToNat ds, charsToNat ms, charsToNat ys)
    else none
  else none

/-- `bot._parse_date` on the underlying characters: full-match of the pattern
`%d.%m.%Y` requires exactly two dots, then component validation. -/
def parseDateChars (l : List Char) : Option (Nat × Nat × Nat) :=
  match splitSep '.' l with
  | [ds, ms, ys] => parseDateTriple ds ms ys
  | _ => none

/-- The `strftime("%Y-%m-%d")` ISO rendering of an accepted date. -/
def isoOfYMD (y m d : Nat) : String :=
  String.mk (pad4Chars y ++ '-' :: pad2Chars m ++ '-' :: pad2Chars d)

/-- `bot._parse_date` (`bot.py` lines 116-122): parse `DD.MM.YYYY` and return the ISO
form, or `None` on any failure. -/
def parseDate (s : String) : Option String :=
  (parseDateChars s.data).map (fun t => isoOfYMD t.2.2 t.2.1 t.1)

/-- `bot.ask_birth_time` (the BIRTH_DATE-state handler, `bot.py` lines 125-135):
strip the text, run `_parse_date`; on failure store nothing and re-prompt BIRTH_DATE,
on success store the ISO date and advance to BIRTH_TIME. -/
def askBirthTime (input : String) : Option String × RegState :=
  match parseDate (pyStrip input) with
  | none => (none, RegState.BIRTH_DATE)
  | some iso => (some iso, RegState.BIRTH_TIME)

/-- Spec-side predicate, following the spec's words: `d.m.y` denotes a real calendar
date (as representable by `strptime`/`datetime`: four-digit year at least 1). -/
def isRealCalendarDate (y m d : Nat) : Bool :=
  1 ≤ y && y ≤ 9999 && 1 ≤ m && m ≤ 12 && 1 ≤ d && d ≤ daysInMonth y m

lemma daysInMonth_le_31 (y m : Nat) : daysInMonth y m ≤ 31 := by
  unfold daysInMonth
  split
  · split <;> omega
  · split <;> omega

lemma chVal_digitChar (d : Nat) (h : d ≤ 9) : chVal (digitChar d) = d := by
  interval_cases d <;> rfl

lemma isDigitCh_digitChar (d : Nat) (h : d ≤ 9) : isDigitCh (digitChar d) = true := by
  interval_cases d <;> rfl

lemma digitChar_ne_dot (d : Nat) (h : d ≤ 9) : (digitChar d == '.') = false := by
  interval_cases d <;> rfl

lemma charsToNat_pad2 (n : Nat) (h : n ≤ 99) : charsToNat (pad2Chars n) = n := by
  unfold charsToNat pad2Chars
  simp only [List.foldl]
  rw [chVal_digitChar _ (by omega), chVal_digitChar _ (by omega)]
  omega

lemma charsToNat_pad4 (n : Nat) (h : n ≤ 9999) : charsToNat (pad4Chars n) = n := by
  unfold charsToNat pad4Chars
  simp only [List.foldl]
  rw [chVal_digitChar _ (by omega), chVal_digitChar _ (by omega),
    chVal_digitChar _ (by omega), chVal_digitChar _ (by omega)]
  omega

lemma pad2Chars_no_dot (n : Nat) : ∀ c ∈ pad2Chars n, (c == '.') = false := by
  intro c hc
  simp only [pad2Chars, List.mem_cons, List.not_mem_nil, or_false] at hc
  rcases hc with rfl | rfl
  · exact digitChar_ne_dot _ (by omega)
  · exact digitChar_ne_dot _ (by omega)

lemma pad4Chars_no_dot (n : Nat) : ∀ c ∈ pad4Chars n, (c == '.') = false := by
  intro c hc
  simp only [pad4Chars, List.mem_cons, List.not_mem_nil, or_false] at hc
  rcases hc with rfl | rfl | rfl | rfl
  · exact digitChar_ne_dot _ (by omega)
  · exact digitChar_ne_dot _ (by omega)
  · exact digitChar_ne_dot _ (by omega)
  · exact digitChar_ne_dot _ (by omega)

lemma splitSep_cons (sep c : Char) (rest : List Char) :
    splitSep sep (c :: rest)
      = match splitSep sep rest with
        | [] => [[c]]
        | p :: ps => if c == sep then [] :: p :: ps else (c :: p) :: ps := rfl

lemma splitSep_ne_nil (sep : Char) (l : List Char) : splitSep sep l ≠ [] := by
  induction l with
  | nil => simp [splitSep]
  | cons c rest ih =>
    rw [splitSep_cons]
    cases hs : splitSep sep rest with
    | nil => simp
    | cons p ps =>
      by_cases h : (c == sep) = true
      · simp [h]
      · simp only [Bool.not_eq_true] at h
        simp [h]

lemma splitSep_nosep (sep : Char) (a : List Char) (ha : ∀ c ∈ a, (c == sep) = false) :
    splitSep sep a = [a] := by
  induction a with
  | nil => rfl
  | cons c rest ih =>
    have hc := ha c (List.mem_cons_self _ _)
    have hr : splitSep sep rest = [rest] :=
      ih (fun x hx => ha x (List.mem_cons_of_mem _ hx))
    rw [splitSep_cons, hr]
    simp [hc]

lemma splitSep_append (sep : Char) (a r : List Char)
    (ha : ∀ c ∈ a, (c == sep) = false) :
    splitSep sep (a ++ sep :: r) = a :: splitSep sep r := by
  induction a with
  | nil =>
    show splitSep sep (sep :: r) = [] :: splitSep sep r
    rw [splitSep_cons]
    cases hs : splitSep sep r with
    | nil => exact absurd hs (splitSep_ne_nil sep r)
    | cons p ps => simp
  | cons c rest ih =>
    have hc := ha c (List.mem_cons_self _ _)
    have hr := ih (fun x hx => ha x (List.mem_cons_of_mem _ hx))
    show splitSep sep (c :: (rest ++ sep :: r)) = (c :: rest) :: splitSep sep r
    rw [splitSep_cons, hr]
    simp [hc]

lemma foldl_digits_lt (l : List Char) (h : ∀ c ∈ l, isDigitCh c = true) :
    ∀ a, List.foldl (fun a c => 10 * a + chVal c) a l < (a + 1) * 10 ^ l.length := by
  induction l with
  | nil =>
    intro a
    simp only [List.foldl, List.length_nil, pow_zero, Nat.mul_one]
    exact Nat.lt_succ_self a
  | cons c rest ih =>
    intro a
    have hc := h c (List.mem_cons_self _ _)
    have hv : chVal c ≤ 9 := by
      simp only [isDigitCh, Bool.and_eq_true, decide_eq_true_eq] at hc
      unfold chVal
      omega
    have h1 : List.foldl (fun a c => 10 * a + chVal c) (10 * a + chVal c) rest
        < (10 * a + chVal c + 1) * 10 ^ rest.length :=
      ih (fun x hx => h x (List.mem_cons_of_mem _ hx)) _
    have h2 : (10 * a + chVal c + 1) * 10 ^ rest.length ≤ (a + 1) * 10 ^ (rest.length + 1) := by
      rw [pow_succ]
      have : 10 * a + chVal c + 1 ≤ (a + 1) * 10 := by omega
      calc (10 * a + chVal c + 1) * 10 ^ rest.length
          ≤ (a + 1) * 10 * 10 ^ rest.length := Nat.mul_le_mul_right _ this
        _ = (a + 1) * (10 ^ rest.length * 10) := by ring
    simpa [List.foldl, List.length_cons] using lt_of_lt_of_le h1 h2

lemma charsToNat_lt_pow (l : List Char) (h : l.all isDigitCh = true) :
    charsToNat l < 10 ^ l.length := by
  have := foldl_digits_lt l (by simpa [List.all_eq_true] using h) 0
  simpa [charsToNat] using this

lemma pad2Chars_all_digit (n : Nat) : (pad2Chars n).all isDigitCh = true := by
  simp [pad2Chars, isDigitCh_digitChar _ (show n / 10 % 10 ≤ 9 by omega),
    isDigitCh_digitChar _ (show n % 10 ≤ 9 by omega)]

lemma pad4Chars_all_digit (n : Nat) : (pad4Chars n).all isDigitCh = true := by
  simp [pad4Chars, isDigitCh_digitChar _ (show n / 1000 % 10 ≤ 9 by omega),
    isDigitCh_digitChar _ (show n / 100 % 10 ≤ 9 by omega),
    isDigitCh_digitChar _ (show n / 10 % 10 ≤ 9 by omega),
    isDigitCh_digitChar _ (show n % 10 ≤ 9 by omega)]

lemma parseDateTriple_padded (d m y : Nat) (hd : d ≤ 99) (hm : m ≤ 99) (hy : y ≤ 9999) :
    parseDateTriple (pad2Chars d) (pad2Chars m) (pad4Chars y)
      = if isRealCalendarDate y m d then some (d, m, y) else none := by
  have hcond1 : (((pad2Chars d).length == 1 || (pad2Chars d).length == 2)
      && (pad2Chars d).all isDigitCh
      && ((pad2Chars m).length == 1 || (pad2Chars m).length == 2)
      && (pad2Chars m).all isDigitCh
      && ((pad4Chars y).length == 4 && (pad4Chars y).all isDigitCh)) = true := by
    have hld : (pad2Chars d).length = 2 := rfl
    have hlm : (pad2Chars m).length = 2 := rfl
    have hly : (pad4Chars y).length = 4 := rfl
    simp [hld, hlm, hly, pad2Chars_all_digit, pad4Chars_all_digit]
  have key : (1 ≤ d && d ≤ 31 && 1 ≤ m && m ≤ 12 && 1 ≤ y && d ≤ daysInMonth y m)
      = isRealCalendarDate y m d := by
    have h31 := daysInMonth_le_31 y m
    rw [Bool.eq_iff_iff]
    simp only [isRealCalendarDate, Bool.and_eq_true, decide_eq_true_eq]
    omega
  unfold parseDateTriple
  simp only [charsToNat_pad2 d hd, charsToNat_pad2 m hm, charsToNat_pad4 y hy]
  rw [hcond1, key]
  simp

lemma parseDateTriple_sound (ds ms ys : List Char) (d m y : Nat)
    (h : parseDateTriple ds ms ys = some (d, m, y)) :
    isRealCalendarDate y m d = true := by
  unfold parseDateTriple at h
  split at h
  · split at h
    · rename_i hc1 hc2
      injection h with h'
      injection h' with h1 h'
      injection h' with h2 h3
      subst h1; subst h2; subst h3
      simp only [Bool.and_eq_true, decide_eq_true_eq] at hc1 hc2
      have hys : ys.all isDigitCh = true := hc1.2.2
      have hlen : ys.length = 4 := by
        have := hc1.2.1
        simpa using this
      have hlt := charsToNat_lt_pow ys hys
      rw [hlen] at hlt
      have hpow : (10 : Nat) ^ 4 = 10000 := by norm_num
      rw [hpow] at hlt
      simp only [isRealCalendarDate, Bool.and_eq_true, decide_eq_true_eq]
      omega
    · cases h
  · cases h

lemma parseDateChars_sound (l : List Char) (d m y : Nat)
    (h : parseDateChars l = some (d, m, y)) :
    isRealCalendarDate y m d = true := by
  unfold parseDateChars at h
  split at h
  · exact parseDateTriple_sound _ _ _ _ _ _ h
  · cases h

/-- C6. The birth-date validator `_parse_date` accepts exactly real calendar dates:
for every day/month/year (in their renderable ranges) the canonical zero-padded
`DD.MM.YYYY` rendering is accepted if and only if it denotes a real calendar date;
every accepted input string yields the ISO `YYYY-MM-DD` normalization of a real
calendar date; and concretely "12.13.2020" and "31.02.2020" are rejected by the
BIRTH_DATE handler, which stores nothing and re-prompts BIRTH_DATE, while
"29.02.2024" is accepted, stored as "2024-02-29", and advances to BIRTH_TIME. -/
theorem c6_parse_date_real_calendar :
    (∀ d m y, d ≤ 99 → m ≤ 99 → y ≤ 9999 →
      parseDateChars (pad2Chars d ++ '.' :: (pad2Chars m ++ '.' :: pad4Chars y))
        = if isRealCalendarDate y m d then some (d, m, y) else none)
    ∧ (∀ s t, parseDate s = some t →
        ∃ d m y, parseDateChars s.data = some (d, m, y)
          ∧ isRealCalendarDate y m d = true ∧ t = isoOfYMD y m d)
    ∧ askBirthTime "12.13.2020" = (none, RegState.BIRTH_DATE)
    ∧ askBirthTime "31.02.2020" = (none, RegState.BIRTH_DATE)
    ∧ askBirthTime "29.02.2024" = (some "2024-02-29", RegState.BIRTH_TIME) := by
  refine ⟨?_, ?_, by decide, by decide, by decide⟩
  · intro d m y hd hm hy
    have hsplit : splitSep '.' (pad2Chars d ++ '.' :: (pad2Chars m ++ '.' :: pad4Chars y))
        = [pad2Chars d, pad2Chars m, pad4Chars y] := by
      rw [splitSep_append '.' _ _ (pad2Chars_no_dot d),
        splitSep_append '.' _ _ (pad2Chars_no_dot m),
        splitSep_nosep '.' _ (pad4Chars_no_dot y)]
    have hred : parseDateChars (pad2Chars d ++ '.' :: (pad2Chars m ++ '.' :: pad4Chars y))
        = parseDateTriple (pad2Chars d) (pad2Chars m) (pad4Chars y) := by
      unfold parseDateChars
      rw [hsplit]
    rw [hred, parseDateTriple_padded d m y hd hm hy]
  · intro s t h
    unfold parseDate at h
    cases hp : parseDateChars s.data with
    | none => rw [hp] at h; cases h
    | some trip =>
      obtain ⟨d, m, y⟩ := trip
      rw [hp] at h
      injection h with h'
      exact ⟨d, m, y, rfl, parseDateChars_sound _ _ _ _ hp, h'.symm⟩

/-- Witness for C6 at a concrete leap date: 29.02.2024 in padded rendering. -/
theorem c6_witness :
    parseDateChars (pad2Chars 29 ++ '.' :: (pad2Chars 2 ++ '.' :: pad4Chars 2024))
      = if isRealCalendarDate 2024 2 29 then some (29, 2, 2024) else none :=
  c6_parse_date_real_calendar.1 29 2 2024 (by decide) (by decide) (by decide)
